import Mathlib

/-!
Verification of the collaborative PDF annotation editor
(`PdfEditor.jsx`, the socket server, and the upload routes).

The JavaScript source is shallowly embedded: screen/PDF coordinates are
rationals, byte buffers and URLs are identified with the documents they
decode to, the external `pdf-lib` codec is modelled only through the
success/failure behaviour of its image decoders, and every stateful
handler becomes a pure state-passing function.
-/

/-- RGB colour with components in PDF's normalized 0–1 space
(`rgb(r, g, b)` of pdf-lib). -/
structure Color where
  r : ℚ
  g : ℚ
  b : ℚ
deriving DecidableEq

/-- a text annotation (`Box`), as created by `addTextBox` and carried in
sync messages.  `fontSize`, `color` and `isBold` are optional because
remotely received boxes may omit them (the embed loop has fallbacks). -/
structure Box where
  id : String
  left : ℚ
  top : ℚ
  width : ℚ
  height : ℚ
  text : String
  fontSize : Option ℚ
  color : Option String
  isBold : Option Bool
  locked : Bool := false
deriving DecidableEq

/-- the decodability of a raster image's raw bytes, the only aspect of the
byte content the pipeline observes through the codec. -/
structure ImgBytes where
  pngOk : Bool
  jpgOk : Bool
deriving DecidableEq

/-- a raster annotation (image object built in `addImage`). -/
structure ImageAnn where
  id : String
  left : ℚ
  top : ℚ
  width : ℚ
  height : ℚ
  imageType : String
  imageBytes : ImgBytes
deriving DecidableEq

/-- Modelled from the spec: the external DocumentCodec capability
(pdf-lib).  `embedPng` succeeds exactly on PNG-decodable bytes. -/
def embedPng (b : ImgBytes) : Except Unit ImgBytes :=
  if b.pngOk then .ok b else .error ()

/-- Modelled from the spec: the external DocumentCodec capability
(pdf-lib).  `embedJpg` succeeds exactly on JPEG-decodable bytes. -/
def embedJpg (b : ImgBytes) : Except Unit ImgBytes :=
  if b.jpgOk then .ok b else .error ()

/-- a drawing instruction issued against a page
(`page.drawText` / `page.drawImage` / `page.drawRectangle`). -/
inductive DrawOp
  | drawText (s : String) (x y size : ℚ) (color : Color) (bold italic : Bool)
  | drawImage (x y w h : ℚ) (img : ImgBytes)
  | drawRect (x y w h : ℚ) (color : Color)
deriving DecidableEq

/-- one page of a loaded document: its height in PDF points and the content
stream of draw operations, in order. -/
structure PdfPage where
  height : ℚ
  ops : List DrawOp
deriving DecidableEq

/-- a document (the bytes of a PDF, identified with their decoded form). -/
abbrev PDFDoc := List PdfPage

/-- JS truthiness fallback `a || b` for numbers (0 is falsy). -/
def jsOr (a b : ℚ) : ℚ := if a = 0 then b else a

/-- JS truthiness fallback `a || b` applied to a possibly missing number. -/
def jsOrQ (a : Option ℚ) (b : ℚ) : ℚ :=
  match a with
  | none => b
  | some q => if q = 0 then b else q

/-- JS truthiness fallback `a || b` for strings ("" is falsy). -/
def jsOrS (a : Option String) (b : String) : String :=
  match a with
  | none => b
  | some s => if s = "" then b else s

/-- JS `String.prototype.trim`: strip whitespace from both ends. -/
def jsTrim (s : String) : String :=
  String.mk (((s.data.dropWhile Char.isWhitespace).reverse.dropWhile
    Char.isWhitespace).reverse)

/-! ## Geometry transform

`embedAllContent` maps an annotation's screen-pixel position to PDF points
(`pdfX = box.left / scale`,
`pdfY = pageHeight - box.top / scale - box.height / scale`), and the
overlay placement for extracted text blocks maps back
(`leftPx = item.x * scale`, `topPx = (pageSize.height - item.y) * scale`). -/

/-- screen position together with the annotation's own screen height to PDF
space, as computed in `embedAllContent`. -/
def toPdfSpace (screenX screenY screenHeight pageH s : ℚ) : ℚ × ℚ :=
  (screenX / s, pageH - screenY / s - screenHeight / s)

/-- PDF position back to screen pixels, as computed when positioning the
overlay hit-targets (`leftPx`/`topPx` in the render loop). -/
def toScreenSpace (pdf : ℚ × ℚ) (pageH s : ℚ) : ℚ × ℚ :=
  (pdf.1 * s, (pageH - pdf.2) * s)

/-! ## History stack -/

/-- the undo/redo state: `history` array and `historyIndex` cursor
(`-1` when empty, as initialised by `useState(-1)`). -/
structure HistState (α : Type) where
  entries : List α
  index : Int
deriving DecidableEq

/-- the initial history state (`[]`, cursor `-1`). -/
def HistState.empty {α : Type} : HistState α := ⟨[], -1⟩

/-- `pushHistory`: truncate after the cursor, append, move the cursor to the
new last entry. -/
def HistState.push {α : Type} (h : HistState α) (b : α) : HistState α :=
  let trimmed := h.entries.take (h.index + 1).toNat
  let next := trimmed ++ [b]
  ⟨next, (next.length : Int) - 1⟩

/-- `canUndo` guard: `historyIndex > 0`. -/
def HistState.canUndo {α : Type} (h : HistState α) : Bool :=
  decide (0 < h.index)

/-- `canRedo` guard: `historyIndex >= 0 && historyIndex < history.length - 1`. -/
def HistState.canRedo {α : Type} (h : HistState α) : Bool :=
  decide (0 ≤ h.index) && decide (h.index < (h.entries.length : Int) - 1)

/-- `handleUndo`: when available, move the cursor back one entry and return
that entry's snapshot; otherwise a no-op returning nothing. -/
def HistState.undo {α : Type} (h : HistState α) : HistState α × Option α :=
  if h.canUndo then
    let idx := h.index - 1
    ({ h with index := idx }, h.entries.get? idx.toNat)
  else (h, none)

/-- `handleRedo`: when available, move the cursor forward one entry and
return that entry's snapshot; otherwise a no-op returning nothing. -/
def HistState.redo {α : Type} (h : HistState α) : HistState α × Option α :=
  if h.canRedo then
    let idx := h.index + 1
    ({ h with index := idx }, h.entries.get? idx.toNat)
  else (h, none)

/-- `N` pushes from the empty history. -/
def HistState.pushAll {α : Type} (l : List α) : HistState α :=
  l.foldl HistState.push HistState.empty

/-! ## Annotation store and sync-channel server -/

/-- a shallow patch object for `update_box`-style messages: arbitrary
partial-field objects, shallow-merged onto the target. -/
structure BoxPatch where
  left : Option ℚ := none
  top : Option ℚ := none
  width : Option ℚ := none
  height : Option ℚ := none
  text : Option String := none
  fontSize : Option ℚ := none
  color : Option String := none
  isBold : Option Bool := none
  locked : Option Bool := none
deriving DecidableEq

/-- JS spread-merge `{ ...box, ...patch }`. -/
def applyPatch (b : Box) (p : BoxPatch) : Box :=
  { id := b.id
    left := p.left.getD b.left
    top := p.top.getD b.top
    width := p.width.getD b.width
    height := p.height.getD b.height
    text := p.text.getD b.text
    fontSize := match p.fontSize with | none => b.fontSize | some q => some q
    color := match p.color with | none => b.color | some c => some c
    isBold := match p.isBold with | none => b.isBold | some v => some v
    locked := p.locked.getD b.locked }

/-- read a key from a JS-object-as-association-list. -/
def getKey {κ β : Type} [DecidableEq κ] (k : κ) (l : List (κ × β)) : Option β :=
  (l.find? (fun p => decide (p.1 = k))).map Prod.snd

/-- write a key in a JS-object-as-association-list (replace or append). -/
def setKey {κ β : Type} [DecidableEq κ] (k : κ) (v : β) :
    List (κ × β) → List (κ × β)
  | [] => [(k, v)]
  | (k', v') :: t => if k' = k then (k, v) :: t else (k', v') :: setKey k v t

/-- the page-number-keyed box lists (`boxes` state / `state.boxes`). -/
abbrev Boxes := List (ℕ × List Box)

/-- the page-number-keyed image lists (`images` state). -/
abbrev Images := List (ℕ × List ImageAnn)

/-- client store `updateBox` (the `setBoxes` functional update): find the
box on the page by id; when absent return the previous state unchanged. -/
def updateBoxClient (boxes : Boxes) (pageNumber : ℕ) (boxId : String)
    (patch : BoxPatch) : Boxes :=
  let arr := (getKey pageNumber boxes).getD []
  match arr.findIdx? (fun b => b.id == boxId) with
  | none => boxes
  | some i =>
    match arr.get? i with
    | none => boxes
    | some b => setKey pageNumber (arr.set i (applyPatch b patch)) boxes

/-- server-side per-document cache entry (`docs` map value
`{ boxes, pdfUrl? }`). -/
structure RoomState where
  boxes : Boxes
  pdfUrl : Option String := none
deriving DecidableEq

/-- the socket server's state: the `docs` cache and the socket.io room
membership per document id. -/
structure ServerState where
  docs : List (String × RoomState)
  rooms : List (String × List String)
deriving DecidableEq

/-- the `init_state` payload.  The JS object literal `{ boxes }` carries no
`images` key, so the images component is an `Option` that the join handler
leaves at `none`. -/
structure InitStatePayload where
  boxes : Boxes
  images : Option Images
deriving DecidableEq

/-- an event emitted by the server. -/
inductive SEvent
  | initState (p : InitStatePayload)
  | boxAdded (pageNumber : ℕ) (box : Box)
  | boxUpdated (pageNumber : ℕ) (boxId : String) (patch : Option BoxPatch)
  | boxDeleted (pageNumber : ℕ) (boxId : String)
  | boxLocked (boxId : String)
  | boxUnlocked (boxId : String)
deriving DecidableEq

/-- an emission, either to the joining socket itself (`socket.emit`) or to
the rest of the room (`socket.to(docId).emit`). -/
inductive ServerEmit
  | toSender (sid : String) (e : SEvent)
  | toRoom (docId : String) (e : SEvent)
deriving DecidableEq

/-- the `join` handler: drop falsy `docId`, enroll the socket in the room,
lazily create the cache entry, and reply with `init_state{boxes}`. -/
def handleJoin (s : ServerState) (sid : String) (docId : Option String) :
    ServerState × List ServerEmit :=
  match docId with
  | none => (s, [])
  | some d =>
    if d = "" then (s, [])
    else
      let members := (getKey d s.rooms).getD []
      let members' := if sid ∈ members then members else members ++ [sid]
      let docs' := if (getKey d s.docs).isNone
        then setKey d ⟨[], none⟩ s.docs else s.docs
      let st := (getKey d docs').getD ⟨[], none⟩
      (⟨docs', setKey d members' s.rooms⟩,
        [.toSender sid (.initState ⟨st.boxes, none⟩)])

/-- the `add_box` handler. -/
def handleAddBox (s : ServerState) (sid : String) (docId : Option String)
    (pageNumber : Option ℕ) (box : Option Box) :
    ServerState × List ServerEmit :=
  match docId, pageNumber, box with
  | some d, some pn, some b =>
    if d = "" ∨ pn = 0 then (s, [])
    else
      let st := (getKey d s.docs).getD ⟨[], none⟩
      let arr := (getKey pn st.boxes).getD []
      let st' := { st with boxes := setKey pn (arr ++ [b]) st.boxes }
      ({ s with docs := setKey d st' s.docs },
        [.toRoom d (.boxAdded pn b)])
  | _, _, _ => (s, [])

/-- the `update_box` handler: silently drop messages with a falsy required
field; when the box id is not found on the page, return before any state
change or emission. -/
def handleUpdateBox (s : ServerState) (sid : String) (docId : Option String)
    (pageNumber : Option ℕ) (boxId : Option String) (patch : Option BoxPatch) :
    ServerState × List ServerEmit :=
  match docId, pageNumber, boxId with
  | some d, some pn, some bid =>
    if d = "" ∨ pn = 0 ∨ bid = "" then (s, [])
    else
      let st := (getKey d s.docs).getD ⟨[], none⟩
      let arr := (getKey pn st.boxes).getD []
      match arr.findIdx? (fun b => b.id == bid) with
      | none => (s, [])
      | some i =>
        match arr.get? i with
        | none => (s, [])
        | some b =>
          let arr' := arr.set i (applyPatch b (patch.getD {}))
          let st' := { st with boxes := setKey pn arr' st.boxes }
          ({ s with docs := setKey d st' s.docs },
            [.toRoom d (.boxUpdated pn bid patch)])
  | _, _, _ => (s, [])

/-- the `delete_box` handler. -/
def handleDeleteBox (s : ServerState) (sid : String) (docId : Option String)
    (pageNumber : Option ℕ) (boxId : Option String) :
    ServerState × List ServerEmit :=
  match docId, pageNumber, boxId with
  | some d, some pn, some bid =>
    if d = "" ∨ pn = 0 ∨ bid = "" then (s, [])
    else
      let st := (getKey d s.docs).getD ⟨[], none⟩
      let arr := (getKey pn st.boxes).getD []
      let st' := { st with boxes := setKey pn (arr.filter (fun b => b.id != bid)) st.boxes }
      ({ s with docs := setKey d st' s.docs },
        [.toRoom d (.boxDeleted pn bid)])
  | _, _, _ => (s, [])

/-- the `lock_box` handler (relay only, no cache change). -/
def handleLockBox (s : ServerState) (sid : String) (docId : Option String)
    (boxId : Option String) : ServerState × List ServerEmit :=
  match docId, boxId with
  | some d, some bid =>
    if d = "" ∨ bid = "" then (s, []) else (s, [.toRoom d (.boxLocked bid)])
  | _, _ => (s, [])

/-- the `unlock_box` handler (relay only, no cache change). -/
def handleUnlockBox (s : ServerState) (sid : String) (docId : Option String)
    (boxId : Option String) : ServerState × List ServerEmit :=
  match docId, boxId with
  | some d, some bid =>
    if d = "" ∨ bid = "" then (s, []) else (s, [.toRoom d (.boxUnlocked bid)])
  | _, _ => (s, [])

/-- a message arriving on the sync channel; fields are optional because the
relay is unauthenticated and payloads may be malformed. -/
inductive ClientMsg
  | join (docId : Option String)
  | addBox (docId : Option String) (pageNumber : Option ℕ) (box : Option Box)
  | updateBox (docId : Option String) (pageNumber : Option ℕ)
      (boxId : Option String) (patch : Option BoxPatch)
  | deleteBox (docId : Option String) (pageNumber : Option ℕ)
      (boxId : Option String)
  | lockBox (docId : Option String) (boxId : Option String)
  | unlockBox (docId : Option String) (boxId : Option String)
  | addImage (docId : Option String) (pageNumber : Option ℕ)
      (image : Option ImageAnn)
  | updateImage (docId : Option String) (pageNumber : Option ℕ)
      (imageId : Option String) (patch : Option BoxPatch)
  | deleteImage (docId : Option String) (pageNumber : Option ℕ)
      (imageId : Option String)

/-- one server step: dispatch a message to its registered handler.  The
server registers no handlers for the image events, so socket.io drops them
without any effect. -/
def serverStep (s : ServerState) (sid : String) (m : ClientMsg) :
    ServerState × List ServerEmit :=
  match m with
  | .join d => handleJoin s sid d
  | .addBox d pn b => handleAddBox s sid d pn b
  | .updateBox d pn bid p => handleUpdateBox s sid d pn bid p
  | .deleteBox d pn bid => handleDeleteBox s sid d pn bid
  | .lockBox d bid => handleLockBox s sid d bid
  | .unlockBox d bid => handleUnlockBox s sid d bid
  | .addImage _ _ _ => (s, [])
  | .updateImage _ _ _ _ => (s, [])
  | .deleteImage _ _ _ => (s, [])

/-- a message is missing a required field (`docId`, `pageNumber`, or
`boxId`/`imageId`) when the corresponding payload slot is absent. -/
def missingRequired : ClientMsg → Bool
  | .join d => d.isNone
  | .addBox d pn b => d.isNone || pn.isNone || b.isNone
  | .updateBox d pn bid _ => d.isNone || pn.isNone || bid.isNone
  | .deleteBox d pn bid => d.isNone || pn.isNone || bid.isNone
  | .lockBox d bid => d.isNone || bid.isNone
  | .unlockBox d bid => d.isNone || bid.isNone
  | .addImage d pn i => d.isNone || pn.isNone || i.isNone
  | .updateImage d pn iid _ => d.isNone || pn.isNone || iid.isNone
  | .deleteImage d pn iid => d.isNone || pn.isNone || iid.isNone

/-! ## Recomposition pipeline -/

/-- the toolbar controls and zoom captured by the editor component
(`scale`, `fontSizeInput`, `fontColorHex`, `boldToggle`). -/
structure UI where
  scale : ℚ
  fontSizeInput : ℚ
  fontColorHex : String
  boldToggle : Bool
deriving DecidableEq

/-- value of a hex digit, case-insensitive. -/
def hexDigitVal (c : Char) : Option ℕ :=
  if '0' ≤ c ∧ c ≤ '9' then some (c.toNat - '0'.toNat)
  else if 'a' ≤ c ∧ c ≤ 'f' then some (c.toNat - 'a'.toNat + 10)
  else if 'A' ≤ c ∧ c ≤ 'F' then some (c.toNat - 'A'.toNat + 10)
  else none

/-- `hexToRgb01`: parse `#RRGGBB` (hash optional, case-insensitive) into
0–1 components; anything that does not match the pattern yields black. -/
def hexToRgb01 (hex : String) : Color :=
  let cs := match hex.data with
    | '#' :: rest => rest
    | l => l
  match cs with
  | [c1, c2, c3, c4, c5, c6] =>
    match hexDigitVal c1, hexDigitVal c2, hexDigitVal c3,
        hexDigitVal c4, hexDigitVal c5, hexDigitVal c6 with
    | some a, some b, some c, some d, some e, some f =>
      ⟨((a * 16 + b : ℕ) : ℚ) / 255, ((c * 16 + d : ℕ) : ℚ) / 255,
        ((e * 16 + f : ℕ) : ℚ) / 255⟩
    | _, _, _, _, _, _ => ⟨0, 0, 0⟩
  | _ => ⟨0, 0, 0⟩

/-- a box's text is drawn unless it is empty, whitespace-only, or the
placeholder `"Type..."`. -/
def drawableText (t : String) : Bool :=
  !(t == "" || jsTrim t == "" || t == "Type...")

/-- the text-draw instruction for one box on a page of the given height:
screen coordinates divided by scale, vertical origin flipped and the box
height subtracted, then the font size added for the baseline. -/
def boxDrawOp (ui : UI) (pageHeight : ℚ) (b : Box) : DrawOp :=
  let boxFontSize := jsOrQ b.fontSize (jsOr ui.fontSizeInput 12)
  let boxColor := jsOrS b.color ui.fontColorHex
  let boxIsBold := b.isBold.getD ui.boldToggle
  let pdfX := b.left / ui.scale
  let pdfY := pageHeight - b.top / ui.scale - b.height / ui.scale
  .drawText b.text pdfX (pdfY + boxFontSize) boxFontSize (hexToRgb01 boxColor)
    boxIsBold false

/-- replace page `i` of a document (no-op when out of range), as
`pdfDoc.getPages()[i]` mutation. -/
def modifyPage (doc : PDFDoc) (i : ℕ) (f : PdfPage → PdfPage) : PDFDoc :=
  match doc.get? i with
  | none => doc
  | some p => doc.set i (f p)

/-- the draw instructions appended for one page's box list. -/
def pageBoxOps (ui : UI) (pageHeight : ℚ) (bs : List Box) : List DrawOp :=
  (bs.filter (fun b => drawableText b.text)).map (boxDrawOp ui pageHeight)

/-- the text-box half of `embedAllContent`: walk the page-keyed box map and
append one text-draw instruction per drawable box to each in-range page. -/
def embedBoxes (ui : UI) (doc : PDFDoc) (bmap : Boxes) : PDFDoc :=
  bmap.foldl
    (fun d e =>
      if 1 ≤ e.1 ∧ e.1 - 1 < d.length then
        modifyPage d (e.1 - 1)
          (fun p => { p with ops := p.ops ++ pageBoxOps ui p.height e.2 })
      else d)
    doc

/-- the image decode of `embedAllContent`: decoder chosen by declared MIME
type, and on any failure one PNG-decode fallback whose own failure
propagates out of the loop. -/
def embedImageOp (img : ImageAnn) : Except Unit ImgBytes :=
  let primary :=
    if img.imageType = "image/png" then embedPng img.imageBytes
    else if img.imageType = "image/jpeg" ∨ img.imageType = "image/jpg" then
      embedJpg img.imageBytes
    else embedPng img.imageBytes
  match primary with
  | .ok e => .ok e
  | .error _ => embedPng img.imageBytes

/-- the image-draw instruction for one image on a page of the given height
(coordinates clamped at 0 as in the source). -/
def imageDrawOp (scale pageHeight : ℚ) (img : ImageAnn) (e : ImgBytes) :
    DrawOp :=
  let pdfX := img.left / scale
  let pdfY := pageHeight - img.top / scale - img.height / scale
  .drawImage (max 0 pdfX) (max 0 pdfY) (img.width / scale)
    (img.height / scale) e

/-- the body of the per-page image loop: decode each image in order and
append its draw instruction, stopping at the first decode failure. -/
def embedImagesOnPage (scale : ℚ) (pn : ℕ) (imgs : List ImageAnn)
    (doc : PDFDoc) : Except Unit PDFDoc :=
  imgs.foldlM
    (fun d img =>
      match embedImageOp img with
      | .error _ => .error ()
      | .ok e => .ok (modifyPage d (pn - 1)
          (fun p => { p with ops := p.ops ++ [imageDrawOp scale p.height img e] })))
    doc

/-- embed one page's image list; a decode failure aborts with an error that
the caller's outer catch will see. -/
def embedImagePage (scale : ℚ) (doc : PDFDoc) (pn : ℕ)
    (imgs : List ImageAnn) : Except Unit PDFDoc :=
  if 1 ≤ pn ∧ pn - 1 < doc.length then embedImagesOnPage scale pn imgs doc
  else .ok doc

/-- the image half of `embedAllContent`. -/
def embedImagesAll (scale : ℚ) (doc : PDFDoc) (imap : Images) :
    Except Unit PDFDoc :=
  imap.foldlM (fun d e => embedImagePage scale d e.1 e.2) doc

/-- `embedAllContent`: draw every text box, then every image; an image
failure aborts the whole embed (caught only by the outer `try`). -/
def embedAllContent (ui : UI) (doc : PDFDoc) (bmap : Boxes) (imap : Images) :
    Except Unit PDFDoc :=
  embedImagesAll ui.scale (embedBoxes ui doc bmap) imap

/-- the editor session: original bytes behind `fileUrl`, the last
recomposed bytes behind `editedUrl`, the working buffer and the history. -/
structure Session where
  ui : UI
  fileUrl : Option PDFDoc
  editedUrl : Option PDFDoc
  current : PDFDoc
  hist : HistState PDFDoc
deriving DecidableEq

/-- the document produced by one `rebuildPdfWithAllContent` call: always
loaded from the original `fileUrl` bytes when available, falling back to
`editedUrl`; `none` when there is no source or the embed failed. -/
def rebuildResult (s : Session) (bmap : Boxes) (imap : Images) :
    Option PDFDoc :=
  match s.fileUrl with
  | some orig =>
    match embedAllContent s.ui orig bmap imap with
    | .ok d => some d
    | .error _ => none
  | none =>
    match s.editedUrl with
    | some src =>
      match embedAllContent s.ui src bmap imap with
      | .ok d => some d
      | .error _ => none
    | none => none

/-- the session after one `rebuildPdfWithAllContent` call: on success the
new bytes become the buffer and the edited URL and are pushed onto the
history; on failure the outer catch only logs and the session is
unchanged. -/
def rebuildSession (s : Session) (bmap : Boxes) (imap : Images) : Session :=
  match rebuildResult s bmap imap with
  | none => s
  | some d => { s with current := d, editedUrl := some d, hist := s.hist.push d }

/-! ## Inline single-block text replacement -/

/-- an extracted text block from `extractTextItems`: string, baseline
position, measured width/height, font name with derived bold/italic flags,
and the attributed fill colour. -/
structure TextItem where
  str : String
  x : ℚ
  y : ℚ
  fontSize : ℚ
  width : ℚ
  height : ℚ
  fontName : String
  isBold : Bool
  isItalic : Bool
  color : Option Color
deriving DecidableEq

/-- `normalizeColor` in `handleSaveTextEditInline`: values above 1 are
assumed to be on the 0–255 scale and divided by 255. -/
def normColorVal (v : ℚ) : ℚ := if 1 < v then v / 255 else v

/-- clamp to the unit interval, as `Math.max(0, Math.min(1, v))`. -/
def clamp01 (v : ℚ) : ℚ := max 0 (min 1 v)

/-- the two draw instructions of `handleSaveTextEditInline`: an opaque white
cover rectangle, then the replacement string at the original baseline with
the block's original font style, size and colour.  `ui` is the surrounding
component's toolbar state and `measure` is the embedded font's
`widthOfTextAtSize`. -/
def inlineEditOps (ui : UI) (measure : String → ℚ → ℚ) (item : TextItem)
    (newStr : String) : List DrawOp :=
  let fontSizeToUse := item.fontSize
  let originalIsBold := item.isBold
  let originalIsItalic := item.isItalic
  let originalColor := (item.color).getD ⟨0, 0, 0⟩
  let r := clamp01 (normColorVal originalColor.r)
  let g := clamp01 (normColorVal originalColor.g)
  let b := clamp01 (normColorVal originalColor.b)
  let oldTextWidth := measure item.str fontSizeToUse
  let newTextWidth := measure newStr fontSizeToUse
  let textWidth := max oldTextWidth newTextWidth + 2
  let actualHeight := jsOr item.height (fontSizeToUse * (7 / 10))
  let coverY := item.y - actualHeight * (1 / 5)
  let coverHeight := actualHeight * (11 / 10)
  [ .drawRect (item.x - 1) coverY textWidth coverHeight ⟨1, 1, 1⟩,
    .drawText newStr item.x item.y fontSizeToUse ⟨r, g, b⟩
      originalIsBold originalIsItalic ]

/-- `handleSaveTextEditInline` applied to the current bytes: append the
cover rectangle and the replacement text to the first page. -/
def handleSaveTextEditInline (ui : UI) (measure : String → ℚ → ℚ)
    (doc : PDFDoc) (item : TextItem) (newStr : String) : PDFDoc :=
  modifyPage doc 0
    (fun p => { p with ops := p.ops ++ inlineEditOps ui measure item newStr })

/-! ## Upload filename sanitisation (socket-server multer storage) -/

/-- a character the sanitiser keeps: the class `[a-zA-Z0-9_.-]`. -/
def isSafeChar (c : Char) : Bool :=
  ('a' ≤ c && c ≤ 'z') || ('A' ≤ c && c ≤ 'Z') || ('0' ≤ c && c ≤ '9') ||
    c == '_' || c == '.' || c == '-'

/-- `originalname.replace(/[^a-zA-Z0-9_.-]/g, "_")`. -/
def sanitizeFilename (s : String) : String :=
  String.mk (s.data.map (fun c => if isSafeChar c then c else '_'))

/-- the stored filename `` `${ts}-${safe}` ``: decimal timestamp, hyphen,
sanitised original name. -/
def storedFilename (ts : ℕ) (originalname : String) : String :=
  Nat.repr ts ++ "-" ++ sanitizeFilename originalname

/-! ## Theorems -/

/-- C3 counterexample: the two transforms of the source are not mutually
inverse.  For the screen position `(50, 100)` of an annotation of screen
height `20` on an 842-pt page at scale 1, mapping to PDF space and back
yields `(50, 120)`, not `(50, 100)` — an error of exactly the annotation
height, far beyond floating-point tolerance. -/
theorem C3_roundtrip_counterexample :
    toScreenSpace (toPdfSpace 50 100 20 842 1) 842 1 = (50, 120) ∧
    ((50 : ℚ), (120 : ℚ)) ≠ ((50 : ℚ), (100 : ℚ)) := by
  constructor
  · simp only [toPdfSpace, toScreenSpace]
    norm_num
  · simp only [ne_eq, Prod.mk.injEq, not_and]
    norm_num

/-- C3 (amended): the round trip through `toPdfSpace` and the overlay's
`toScreenSpace` returns the screen x unchanged but shifts the screen y down
by exactly the annotation's screen height; it is the identity precisely for
zero-height positions. -/
theorem C3_roundtrip_amended (x y hgt pageH s : ℚ) (hs : s ≠ 0) :
    toScreenSpace (toPdfSpace x y hgt pageH s) pageH s = (x, y + hgt) := by
  simp only [toPdfSpace, toScreenSpace, Prod.mk.injEq]
  constructor
  · field_simp
  · field_simp
    ring

theorem C3_roundtrip_amended_witness :
    toScreenSpace (toPdfSpace 50 100 20 842 2) 842 2 = (50, 100 + 20) :=
  C3_roundtrip_amended 50 100 20 842 2 (by norm_num)

/-- pushing onto a history whose cursor sits at the last entry appends and
advances the cursor. -/
theorem HistState.push_of_atTop {α : Type} (h : HistState α) (b : α)
    (hh : h.index = (h.entries.length : Int) - 1) :
    h.push b = ⟨h.entries ++ [b], (h.entries.length : Int)⟩ := by
  have h1 : (h.index + 1).toNat = h.entries.length := by omega
  simp only [HistState.push, h1, List.take_length, List.length_append,
    List.length_singleton]
  have h2 : ((h.entries.length + 1 : ℕ) : Int) - 1 = (h.entries.length : Int) := by
    omega
  rw [h2]

/-- folding pushes over a history at the top appends the whole list. -/
theorem HistState.foldl_push_of_atTop {α : Type} (l : List α) :
    ∀ (st : HistState α), st.index = (st.entries.length : Int) - 1 →
      (l.foldl HistState.push st).entries = st.entries ++ l ∧
      (l.foldl HistState.push st).index =
        ((st.entries ++ l).length : Int) - 1 := by
  induction l with
  | nil => intro st hst; simpa using hst
  | cons a t ih =>
    intro st hst
    have hpush := HistState.push_of_atTop st a hst
    have hnext : (st.push a).index = (((st.push a).entries).length : Int) - 1 := by
      rw [hpush]; simp
    obtain ⟨he, hi⟩ := ih (st.push a) hnext
    refine ⟨?_, ?_⟩
    · rw [List.foldl_cons, he, hpush]
      simp
    · rw [List.foldl_cons, hi, hpush]
      simp [List.length_append]

/-- C4: the history stack contract of `pushHistory`/`handleUndo`/
`handleRedo`: (i) after `N` pushes from the empty history with no
intervening undo the cursor is `N-1` and redo is unavailable; (ii) a push
truncates every entry after the cursor before appending; (iii) undo at the
first entry and redo at the last entry are no-ops; (iv) after one undo,
redo followed by undo returns exactly the snapshot stored for the prior
entry. -/
theorem C4_history_contract {α : Type} :
    (∀ l : List α, (HistState.pushAll l).entries = l ∧
      (HistState.pushAll l).index = (l.length : Int) - 1 ∧
      (HistState.pushAll l).canRedo = false) ∧
    (∀ (h : HistState α) (b : α),
      (h.push b).entries = h.entries.take (h.index + 1).toNat ++ [b]) ∧
    (∀ h : HistState α, h.index = 0 → h.undo = (h, none)) ∧
    (∀ h : HistState α, h.index = (h.entries.length : Int) - 1 →
      h.redo = (h, none)) ∧
    (∀ h : HistState α, 0 < h.index → h.index < (h.entries.length : Int) →
      ((h.undo.1.redo).1.undo).2 = h.undo.2 ∧
      h.undo.2 = h.entries.get? (h.index - 1).toNat) := by
  refine ⟨?_, ?_, ?_, ?_, ?_⟩
  · intro l
    obtain ⟨he, hi⟩ := HistState.foldl_push_of_atTop l
      (HistState.empty (α := α)) (by simp [HistState.empty])
    have he' : (HistState.pushAll l).entries = l := by
      rw [HistState.pushAll, he]
      simp [HistState.empty]
    have hi' : (HistState.pushAll l).index = (l.length : Int) - 1 := by
      rw [HistState.pushAll, hi]
      simp [HistState.empty]
    refine ⟨he', hi', ?_⟩
    simp only [HistState.canRedo, Bool.and_eq_false_iff,
      decide_eq_false_iff_not, not_lt]
    right
    rw [hi', he']
  · intro h b
    rfl
  · intro h hh
    simp [HistState.undo, HistState.canUndo, hh]
  · intro h hh
    have : h.canRedo = false := by
      simp only [HistState.canRedo, Bool.and_eq_false_iff,
        decide_eq_false_iff_not, not_lt]
      right
      omega
    simp [HistState.redo, this]
  · intro h h0 hlen
    have hu : h.canUndo = true := by
      simp [HistState.canUndo, h0]
    have hundo : h.undo =
        ({ h with index := h.index - 1 }, h.entries.get? (h.index - 1).toNat) := by
      simp [HistState.undo, hu]
    have hr : ({ h with index := h.index - 1 } : HistState α).canRedo = true := by
      simp only [HistState.canRedo, Bool.and_eq_true, decide_eq_true_eq]
      omega
    have hredo : ({ h with index := h.index - 1 } : HistState α).redo =
        ({ h with index := h.index }, h.entries.get? h.index.toNat) := by
      simp only [HistState.redo, hr, if_true]
      have : h.index - 1 + 1 = h.index := by omega
      simp [this]
    refine ⟨?_, by rw [hundo]⟩
    rw [hundo]
    simp only
    rw [hredo]
    simp only
    have h2 : ({ h with index := h.index } : HistState α) = h := rfl
    rw [h2, hundo]

theorem C4_history_contract_witness :
    (HistState.undo ((HistState.redo (HistState.undo
        (⟨[[], [⟨842, []⟩]], 1⟩ : HistState PDFDoc)).1).1)).2 =
      (HistState.undo (⟨[[], [⟨842, []⟩]], 1⟩ : HistState PDFDoc)).2 ∧
    (HistState.undo (⟨[[], [⟨842, []⟩]], 1⟩ : HistState PDFDoc)).2 =
      ([[], [⟨842, []⟩]] : List PDFDoc).get? (((1 : Int) - 1)).toNat :=
  (C4_history_contract (α := PDFDoc)).2.2.2.2 ⟨[[], [⟨842, []⟩]], 1⟩
    (by decide) (by decide)

/-- every decimal digit character is in the kept class `[a-zA-Z0-9_.-]`. -/
theorem isSafeChar_digitChar (n : ℕ) (hn : n < 10) :
    isSafeChar (Nat.digitChar n) = true := by
  interval_cases n <;> decide

/-- every character produced by `Nat.toDigitsCore` at base 10 over a safe
accumulator is in the kept class. -/
theorem toDigitsCore_safe (f : ℕ) :
    ∀ (n : ℕ) (acc : List Char), (∀ c ∈ acc, isSafeChar c = true) →
      ∀ c ∈ Nat.toDigitsCore 10 f n acc, isSafeChar c = true := by
  induction f with
  | zero =>
    intro n acc hacc c hc
    exact hacc c hc
  | succ f ih =>
    intro n acc hacc c hc
    simp only [Nat.toDigitsCore] at hc
    have hd : isSafeChar (Nat.digitChar (n % 10)) = true :=
      isSafeChar_digitChar _ (Nat.mod_lt _ (by norm_num))
    by_cases h0 : n / 10 = 0
    · rw [if_pos h0] at hc
      rcases List.mem_cons.mp hc with h | h
      · rw [h]; exact hd
      · exact hacc c h
    · rw [if_neg h0] at hc
      refine ih (n / 10) (Nat.digitChar (n % 10) :: acc) ?_ c hc
      intro c' hc'
      rcases List.mem_cons.mp hc' with h | h
      · rw [h]; exact hd
      · exact hacc c' h

/-- every character of the decimal rendering of a natural number is in the
kept class. -/
theorem repr_safe (ts : ℕ) : ∀ c ∈ (Nat.repr ts).data, isSafeChar c = true := by
  intro c hc
  rw [Nat.repr] at hc
  have : (Nat.toDigits 10 ts).asString.data = Nat.toDigits 10 ts := rfl
  rw [this] at hc
  exact toDigitsCore_safe (ts + 1) ts [] (by intro c h; cases h) c hc

/-- C10: the socket-server upload endpoint stores files under
`` `${Date.now()}-${originalname.replace(/[^a-zA-Z0-9_.-]/g, "_")}` ``.
Every character of the stored name is a decimal digit, a hyphen, or a kept
character of the class `[a-zA-Z0-9_.-]`; in particular the stored name
contains no `/` and no `\`, so the file always lands directly inside the
uploads directory regardless of the client-supplied original filename. -/
theorem C10_stored_filename_safe (ts : ℕ) (name : String) :
    ((storedFilename ts name).data.all isSafeChar = true) ∧
    ((storedFilename ts name).data.contains '/' = false) ∧
    ((storedFilename ts name).data.contains '\\' = false) ∧
    storedFilename ts name = Nat.repr ts ++ "-" ++ sanitizeFilename name := by
  have hall : ∀ c ∈ (storedFilename ts name).data, isSafeChar c = true := by
    intro c hc
    rw [storedFilename] at hc
    rw [String.data_append, String.data_append] at hc
    rcases List.mem_append.mp hc with h | h
    · rcases List.mem_append.mp h with h' | h'
      · exact repr_safe ts c h'
      · have : c = '-' := by simpa using h'
        rw [this]; decide
    · rw [sanitizeFilename] at h
      have h2 : c ∈ name.data.map (fun c => if isSafeChar c then c else '_') := h
      obtain ⟨c', _, hc'⟩ := List.mem_map.mp h2
      by_cases hs : isSafeChar c' = true
      · rw [← hc', if_pos hs]
        exact hs
      · rw [← hc', if_neg hs]
        decide
  have hno : ∀ (bad : Char), isSafeChar bad = false →
      (storedFilename ts name).data.contains bad = false := by
    intro bad hbad
    rw [Bool.eq_false_iff]
    intro hcon
    obtain ⟨x, hx, hbx⟩ := List.contains_iff_exists_mem_beq.mp hcon
    have hxeq : bad = x := beq_iff_eq.mp hbx
    have hsx := hall x hx
    rw [← hxeq, hbad] at hsx
    exact Bool.false_ne_true hsx
  exact ⟨List.all_eq_true.mpr hall, hno '/' (by decide),
    hno '\\' (by decide), rfl⟩

/-- the toolbar state of the scenario of §8: scale 1, font size 12, black,
bold off. -/
def uiDemo : UI := ⟨1, 12, "#000000", false⟩

/-- a one-page source document, 842 PDF points tall, with no prior
annotations drawn. -/
def onePageDoc : PDFDoc := [⟨842, []⟩]

/-- the Box of the §8 scenario: `{page:1, left:50, top:100, width:180,
height:20, text:"Hello", fontSize:12}`. -/
def helloBox : Box :=
  ⟨"b1", 50, 100, 180, 20, "Hello", some 12, some "#000000", some false, false⟩

/-- parsing the default black hex colour. -/
theorem hexToRgb01_black : hexToRgb01 "#000000" = ⟨0, 0, 0⟩ := by
  have hdata : "#000000".data = ['#', '0', '0', '0', '0', '0', '0'] := by decide
  have h0 : hexDigitVal '0' = some 0 := by decide
  simp only [hexToRgb01, hdata, h0]
  norm_num

/-- C2 counterexample: on the §8 scenario the text-draw instruction is
issued at `y = 734`, not at the claimed `y = 722`: the source adds the
box's font size to the computed bottom-edge anchor
(`y: pdfY + boxFontSize`) before drawing. -/
theorem C2_anchor_counterexample :
    embedAllContent uiDemo onePageDoc [(1, [helloBox])] [] =
      .ok [⟨842, [.drawText "Hello" 50 734 12 ⟨0, 0, 0⟩ false false]⟩] ∧
    (734 : ℚ) ≠ 722 := by
  constructor
  · have hblack : hexToRgb01 "#000000" = ⟨0, 0, 0⟩ := hexToRgb01_black
    simp only [embedAllContent, embedImagesAll, embedBoxes, modifyPage,
      pageBoxOps, boxDrawOp, drawableText, jsOrQ, jsOrS, jsOr,
      uiDemo, onePageDoc, helloBox, List.foldl, List.foldlM,
      List.filter, List.map, List.get?, List.set]
    norm_num [hblack]
    rfl
  · norm_num

/-- C2 (amended): on the §8 scenario (one 842-pt page, Box at left 50,
top 100, width 180, height 20, text "Hello", font size 12, scale 1)
recomposition draws the text at `x = left/scale = 50` and
`y = pageHeight - top/scale - height/scale + fontSize = 734`: the bottom
edge anchor of the claim plus the font size, added by the source as a
baseline adjustment. -/
theorem C2_anchor_amended :
    embedAllContent uiDemo onePageDoc [(1, [helloBox])] [] =
      .ok [⟨842, [.drawText "Hello" (50 / 1) (842 - 100 / 1 - 20 / 1 + 12)
        12 ⟨0, 0, 0⟩ false false]⟩] := by
  have hblack : hexToRgb01 "#000000" = ⟨0, 0, 0⟩ := hexToRgb01_black
  simp only [embedAllContent, embedImagesAll, embedBoxes, modifyPage,
    pageBoxOps, boxDrawOp, drawableText, jsOrQ, jsOrS, jsOr,
    uiDemo, onePageDoc, helloBox, List.foldl, List.foldlM,
    List.filter, List.map, List.get?, List.set]
  norm_num [hblack]
  rfl

/-- a rebuild call never touches `fileUrl` or the toolbar state. -/
theorem rebuildSession_preserves (s : Session) (bmap : Boxes) (imap : Images) :
    (rebuildSession s bmap imap).fileUrl = s.fileUrl ∧
    (rebuildSession s bmap imap).ui = s.ui := by
  unfold rebuildSession
  cases h : rebuildResult s bmap imap <;> simp

/-- the buffer after a rebuild is the produced document when the embed
succeeded, and the old buffer otherwise. -/
theorem rebuildSession_current (s : Session) (bmap : Boxes) (imap : Images) :
    (rebuildSession s bmap imap).current =
      (rebuildResult s bmap imap).getD s.current := by
  unfold rebuildSession
  cases h : rebuildResult s bmap imap <;> simp

/-- when the original bytes are reachable through `fileUrl`, the produced
document depends only on them, the toolbar state and the annotation sets —
never on the working buffer or the previously recomposed bytes. -/
theorem rebuildResult_of_fileUrl (s s' : Session) (bmap : Boxes)
    (imap : Images) (orig : PDFDoc) (h : s.fileUrl = some orig)
    (h' : s'.fileUrl = some orig) (hui : s'.ui = s.ui) :
    rebuildResult s' bmap imap = rebuildResult s bmap imap := by
  unfold rebuildResult
  rw [h, h', hui]

/-- C1: recomposition is idempotent.  With the original bytes available
behind `fileUrl` and a positive scale, a second
`rebuildPdfWithAllContent` call with the same annotation sets produces
exactly the document of the first call (so repeated recomposition never
duplicates drawn content), the working buffer is unchanged by the second
call, and the produced document is the same from any session sharing the
same original bytes and toolbar state regardless of its previously
recomposed bytes. -/
theorem C1_recompose_idempotent (s : Session) (bmap : Boxes) (imap : Images)
    (orig : PDFDoc) (hf : s.fileUrl = some orig) (hs : 0 < s.ui.scale) :
    rebuildResult (rebuildSession s bmap imap) bmap imap =
      rebuildResult s bmap imap ∧
    (rebuildSession (rebuildSession s bmap imap) bmap imap).current =
      (rebuildSession s bmap imap).current ∧
    (∀ s' : Session, s'.fileUrl = s.fileUrl → s'.ui = s.ui →
      rebuildResult s' bmap imap = rebuildResult s bmap imap) := by
  obtain ⟨hfu, hui⟩ := rebuildSession_preserves s bmap imap
  have hsame : rebuildResult (rebuildSession s bmap imap) bmap imap =
      rebuildResult s bmap imap :=
    rebuildResult_of_fileUrl s _ bmap imap orig hf (hfu.trans hf) hui
  refine ⟨hsame, ?_, ?_⟩
  · rw [rebuildSession_current (rebuildSession s bmap imap), hsame,
      rebuildSession_current s]
    cases h2 : rebuildResult s bmap imap with
    | none => simp
    | some d => simp
  · intro s' h1 h2
    exact rebuildResult_of_fileUrl s s' bmap imap orig hf (h1.trans hf) h2

/-- the session of the §8 scenario: original bytes loaded, history seeded
with the original snapshot. -/
def sessionDemo : Session :=
  ⟨uiDemo, some onePageDoc, none, onePageDoc, ⟨[onePageDoc], 0⟩⟩

theorem C1_recompose_idempotent_witness :
    rebuildResult (rebuildSession sessionDemo [(1, [helloBox])] [])
        [(1, [helloBox])] [] =
      rebuildResult sessionDemo [(1, [helloBox])] [] ∧
    (rebuildSession (rebuildSession sessionDemo [(1, [helloBox])] [])
        [(1, [helloBox])] []).current =
      (rebuildSession sessionDemo [(1, [helloBox])] []).current :=
  ⟨(C1_recompose_idempotent sessionDemo [(1, [helloBox])] [] onePageDoc rfl
      (by norm_num [sessionDemo, uiDemo])).1,
    (C1_recompose_idempotent sessionDemo [(1, [helloBox])] [] onePageDoc rfl
      (by norm_num [sessionDemo, uiDemo])).2.1⟩

/-- C7: updating a box by an identifier absent from the page's list is a
non-raising no-op on both sides: the client store's `updateBox` returns
the previous state unchanged, and the server's `update_box` handler
returns before any cache write or broadcast. -/
theorem C7_update_missing_noop (bmap : Boxes) (srv : ServerState)
    (sid d : String) (page : ℕ) (bid : String) (patch : BoxPatch)
    (hd : d ≠ "") (hp : page ≠ 0) (hb : bid ≠ "")
    (hclient : ∀ b ∈ (getKey page bmap).getD [], b.id ≠ bid)
    (hserver : ∀ b ∈ (getKey page ((getKey d srv.docs).getD
      ⟨[], none⟩).boxes).getD [], b.id ≠ bid) :
    updateBoxClient bmap page bid patch = bmap ∧
    handleUpdateBox srv sid (some d) (some page) (some bid) (some patch) =
      (srv, []) := by
  constructor
  · have hnone : ((getKey page bmap).getD []).findIdx?
        (fun b => b.id == bid) = none := by
      rw [List.findIdx?_eq_none_iff]
      intro x hx
      simpa using hclient x hx
    simp only [updateBoxClient, hnone]
  · have hcond : ¬(d = "" ∨ page = 0 ∨ bid = "") := by
      push_neg
      exact ⟨hd, hp, hb⟩
    have hnone : ((getKey page ((getKey d srv.docs).getD
        ⟨[], none⟩).boxes).getD []).findIdx? (fun b => b.id == bid) = none := by
      rw [List.findIdx?_eq_none_iff]
      intro x hx
      simpa using hserver x hx
    simp only [handleUpdateBox, if_neg hcond, hnone]

theorem C7_update_missing_noop_witness :
    updateBoxClient [(1, [helloBox])] 1 "nope" {} = [(1, [helloBox])] ∧
    handleUpdateBox ⟨[("doc1", ⟨[(1, [helloBox])], none⟩)], []⟩ "s1"
      (some "doc1") (some 1) (some "nope") (some {}) =
      (⟨[("doc1", ⟨[(1, [helloBox])], none⟩)], []⟩, []) :=
  C7_update_missing_noop [(1, [helloBox])]
    ⟨[("doc1", ⟨[(1, [helloBox])], none⟩)], []⟩ "s1" "doc1" 1 "nope" {}
    (by decide) (by decide) (by decide) (by decide) (by decide)

/-- C8: a sync-channel message missing a required field (`docId`,
`pageNumber`, or `boxId`/`imageId`) produces no server state change and no
emission: the box handlers return early on falsy required fields, and the
image events have no registered handler at all. -/
theorem C8_malformed_dropped (s : ServerState) (sid : String) (m : ClientMsg)
    (h : missingRequired m = true) : serverStep s sid m = (s, []) := by
  cases m with
  | join d =>
    cases d with
    | none => rfl
    | some v => simp [missingRequired] at h
  | addBox d pn b =>
    cases d <;> cases pn <;> cases b <;>
      first
      | rfl
      | simp [missingRequired] at h
  | updateBox d pn bid p =>
    cases d <;> cases pn <;> cases bid <;>
      first
      | rfl
      | simp [missingRequired] at h
  | deleteBox d pn bid =>
    cases d <;> cases pn <;> cases bid <;>
      first
      | rfl
      | simp [missingRequired] at h
  | lockBox d bid =>
    cases d <;> cases bid <;>
      first
      | rfl
      | simp [missingRequired] at h
  | unlockBox d bid =>
    cases d <;> cases bid <;>
      first
      | rfl
      | simp [missingRequired] at h
  | addImage d pn i => rfl
  | updateImage d pn iid p => rfl
  | deleteImage d pn iid => rfl

theorem C8_malformed_dropped_witness :
    serverStep ⟨[("doc1", ⟨[(1, [helloBox])], none⟩)], [("doc1", ["s2"])]⟩
      "s1" (.deleteBox (some "doc1") (some 1) none) =
      (⟨[("doc1", ⟨[(1, [helloBox])], none⟩)], [("doc1", ["s2"])]⟩, []) :=
  C8_malformed_dropped ⟨[("doc1", ⟨[(1, [helloBox])], none⟩)],
    [("doc1", ["s2"])]⟩ "s1" (.deleteBox (some "doc1") (some 1) none)
    (by decide)

/-- writing a key then reading it back yields the written value. -/
theorem getKey_setKey_self {κ β : Type} [DecidableEq κ] (k : κ) (v : β)
    (l : List (κ × β)) : getKey k (setKey k v l) = some v := by
  induction l with
  | nil => simp [getKey, setKey]
  | cons p t ih =>
    obtain ⟨k', v'⟩ := p
    by_cases h : k' = k
    · subst h
      simp [getKey, setKey]
    · simp only [setKey, if_neg h, getKey, List.find?_cons]
      have hdec : (decide ((k', v').1 = k)) = false := by simpa using h
      rw [hdec]
      simpa [getKey] using ih

/-- C5 as stated by the spec: the `init_state` reply to a join reflects
both the boxes and the images of the RoomState cache (i.e. it carries an
images component). -/
def C5_claim : Prop :=
  ∀ (s : ServerState) (sid d : String), d ≠ "" →
    ∃ (st : RoomState) (p : InitStatePayload),
      getKey d (handleJoin s sid (some d)).1.docs = some st ∧
      (handleJoin s sid (some d)).2 =
        [ServerEmit.toSender sid (SEvent.initState p)] ∧
      p.boxes = st.boxes ∧ p.images ≠ none

/-- C5 counterexample: the server's join handler emits
`init_state{boxes}` with no images component at all (`docs` entries store
no images, and the payload literal is `{ boxes }`), so the claim fails
already for a fresh room. -/
theorem C5_init_state_counterexample : ¬ C5_claim := by
  intro h
  obtain ⟨st, p, h1, h2, h3, h4⟩ := h ⟨[], []⟩ "s1" "doc1" (by decide)
  have hj : (handleJoin ⟨[], []⟩ "s1" (some "doc1")).2 =
      [ServerEmit.toSender "s1" (SEvent.initState ⟨[], none⟩)] := rfl
  rw [hj] at h2
  have hp : p = ⟨[], none⟩ := by
    have := List.head_eq_of_cons_eq h2
    injection this with h5 h6
    injection h6 with h7
    exact h7.symm
  rw [hp] at h4
  exact h4 rfl

/-- C5 (amended): for every join with a truthy document id the server
enrolls the socket in that document's room, lazily creates the cache entry
`{boxes:{}}` when absent (and keeps the existing entry otherwise), and
replies to the joining socket alone with an `init_state` event carrying
exactly the cache entry's boxes and no images component. -/
theorem C5_join_amended (s : ServerState) (sid d : String) (hd : d ≠ "") :
    (sid ∈ (getKey d (handleJoin s sid (some d)).1.rooms).getD []) ∧
    (∃ st : RoomState,
      getKey d (handleJoin s sid (some d)).1.docs = some st ∧
      (handleJoin s sid (some d)).2 =
        [ServerEmit.toSender sid (SEvent.initState ⟨st.boxes, none⟩)]) ∧
    (getKey d s.docs = none →
      getKey d (handleJoin s sid (some d)).1.docs = some ⟨[], none⟩) ∧
    (∀ st0 : RoomState, getKey d s.docs = some st0 →
      getKey d (handleJoin s sid (some d)).1.docs = some st0) := by
  have hj : handleJoin s sid (some d) =
      (⟨if (getKey d s.docs).isNone then setKey d ⟨[], none⟩ s.docs else s.docs,
        setKey d (if sid ∈ (getKey d s.rooms).getD []
          then (getKey d s.rooms).getD []
          else (getKey d s.rooms).getD [] ++ [sid]) s.rooms⟩,
        [.toSender sid (.initState
          ⟨((getKey d (if (getKey d s.docs).isNone
              then setKey d ⟨[], none⟩ s.docs else s.docs)).getD
            ⟨[], none⟩).boxes, none⟩)]) := by
    simp only [handleJoin, if_neg hd]
  refine ⟨?_, ?_, ?_, ?_⟩
  · rw [hj]
    simp only [getKey_setKey_self, Option.getD_some]
    by_cases hm : sid ∈ (getKey d s.rooms).getD []
    · rwa [if_pos hm]
    · rw [if_neg hm]
      exact List.mem_append_right _ (List.mem_singleton_self sid)
  · rw [hj]
    simp only
    cases hdoc : getKey d s.docs with
    | none =>
      refine ⟨⟨[], none⟩, ?_, ?_⟩
      · simp [hdoc, getKey_setKey_self]
      · simp [hdoc, getKey_setKey_self]
    | some st0 =>
      refine ⟨st0, ?_, ?_⟩
      · simp [hdoc]
      · simp [hdoc]
  · intro hdoc
    rw [hj]
    simp [hdoc, getKey_setKey_self]
  · intro st0 hdoc
    rw [hj]
    simp [hdoc]

theorem C5_join_amended_witness :
    "s1" ∈ (getKey "doc1"
      (handleJoin ⟨[], []⟩ "s1" (some "doc1")).1.rooms).getD [] :=
  (C5_join_amended ⟨[], []⟩ "s1" "doc1" (by decide)).1

/-- C9: inline single-block replacement first paints an opaque white cover
rectangle sized from the larger of the old and new measured text widths
(plus a 2-pt safety margin and 1-pt left offset) and the block's measured
glyph height (1.1×, lowered 0.2× for descenders), then draws the
replacement string at the original baseline with the block's original
bold/italic style, original font size and original extracted colour — the
output never depends on the toolbar's user-chosen font-size and colour
controls. -/
theorem C9_inline_edit_original_style (ui ui' : UI)
    (measure : String → ℚ → ℚ) (doc : PDFDoc) (page1 : PdfPage)
    (item : TextItem) (newStr : String) (hdoc : doc.get? 0 = some page1)
    (hh : item.height ≠ 0) :
    handleSaveTextEditInline ui measure doc item newStr =
      handleSaveTextEditInline ui' measure doc item newStr ∧
    handleSaveTextEditInline ui measure doc item newStr =
      doc.set 0 { page1 with ops := page1.ops ++
        [.drawRect (item.x - 1) (item.y - item.height * (1 / 5))
          (max (measure item.str item.fontSize)
            (measure newStr item.fontSize) + 2)
          (item.height * (11 / 10)) ⟨1, 1, 1⟩,
         .drawText newStr item.x item.y item.fontSize
          ⟨clamp01 (normColorVal ((item.color).getD ⟨0, 0, 0⟩).r),
           clamp01 (normColorVal ((item.color).getD ⟨0, 0, 0⟩).g),
           clamp01 (normColorVal ((item.color).getD ⟨0, 0, 0⟩).b)⟩
          item.isBold item.isItalic] } := by
  constructor
  · rfl
  · simp only [handleSaveTextEditInline, modifyPage, hdoc, inlineEditOps,
      jsOr, if_neg hh]

/-- toolbar state differing from `uiDemo` in every control. -/
def uiAlt : UI := ⟨2, 30, "#ff0000", true⟩

/-- a concrete width measure standing in for `font.widthOfTextAtSize`. -/
def measureDemo (s : String) (size : ℚ) : ℚ := size * (s.length : ℚ)

/-- a concrete extracted block on the demo page. -/
def itemDemo : TextItem :=
  ⟨"Old", 72, 700, 12, 30, 10, "Helvetica-Bold", true, false,
    some ⟨0, 0, 0⟩⟩

theorem C9_inline_edit_original_style_witness :
    handleSaveTextEditInline uiDemo measureDemo onePageDoc itemDemo "New" =
      handleSaveTextEditInline uiAlt measureDemo onePageDoc itemDemo "New" :=
  (C9_inline_edit_original_style uiDemo uiAlt measureDemo onePageDoc
    ⟨842, []⟩ itemDemo "New" rfl (by norm_num [itemDemo])).1

/-- replacing a page never changes the page count. -/
theorem modifyPage_length (doc : PDFDoc) (i : ℕ) (f : PdfPage → PdfPage) :
    (modifyPage doc i f).length = doc.length := by
  unfold modifyPage
  cases h : doc.get? i <;> simp

/-- drawing text boxes never changes the page count. -/
theorem embedBoxes_length (ui : UI) (bmap : Boxes) :
    ∀ (doc : PDFDoc), (embedBoxes ui doc bmap).length = doc.length := by
  induction bmap with
  | nil => intro doc; rfl
  | cons e t ih =>
    intro doc
    unfold embedBoxes
    rw [List.foldl_cons]
    by_cases h : 1 ≤ e.1 ∧ e.1 - 1 < doc.length
    · rw [if_pos h]
      have := ih (modifyPage doc (e.1 - 1)
        (fun p => { p with ops := p.ops ++ pageBoxOps ui p.height e.2 }))
      unfold embedBoxes at this
      rw [this, modifyPage_length]
    · rw [if_neg h]
      have := ih doc
      unfold embedBoxes at this
      rw [this]

/-- a failing image decode anywhere in a page's list makes the whole
per-page loop fail. -/
theorem embedImagesOnPage_error (scale : ℚ) (pn : ℕ) (imgs : List ImageAnn)
    (img : ImageAnn) (hmem : img ∈ imgs)
    (hfail : embedImageOp img = .error ()) :
    ∀ doc : PDFDoc, embedImagesOnPage scale pn imgs doc = .error () := by
  induction imgs with
  | nil => cases hmem
  | cons a t ih =>
    intro doc
    unfold embedImagesOnPage
    rw [List.foldlM_cons]
    rcases List.mem_cons.mp hmem with h | h
    · rw [← h, hfail]
      rfl
    · cases ha : embedImageOp a with
      | error e => rfl
      | ok e =>
        have := ih h (modifyPage doc (pn - 1)
          (fun p => { p with ops := p.ops ++ [imageDrawOp scale p.height a e] }))
        unfold embedImagesOnPage at this
        exact this

/-- a successful per-page image loop preserves the page count. -/
theorem embedImagesOnPage_length (scale : ℚ) (pn : ℕ)
    (imgs : List ImageAnn) :
    ∀ (doc doc' : PDFDoc), embedImagesOnPage scale pn imgs doc = .ok doc' →
      doc'.length = doc.length := by
  induction imgs with
  | nil =>
    intro doc doc' h
    have h2 : (pure doc : Except Unit PDFDoc) = Except.ok doc' := by
      simpa [embedImagesOnPage, List.foldlM] using h
    have : doc = doc' := by
      injection h2 with h3
    rw [← this]
  | cons a t ih =>
    intro doc doc' h
    unfold embedImagesOnPage at h
    rw [List.foldlM_cons] at h
    cases ha : embedImageOp a with
    | error e =>
      rw [ha] at h
      cases h
    | ok e =>
      rw [ha] at h
      have h2 : embedImagesOnPage scale pn t (modifyPage doc (pn - 1)
          (fun p => { p with ops := p.ops ++ [imageDrawOp scale p.height a e] })) =
          .ok doc' := h
      have := ih _ _ h2
      rw [this, modifyPage_length]

/-- a successful page embed preserves the page count. -/
theorem embedImagePage_length (scale : ℚ) (doc doc' : PDFDoc) (pn : ℕ)
    (imgs : List ImageAnn) (h : embedImagePage scale doc pn imgs = .ok doc') :
    doc'.length = doc.length := by
  unfold embedImagePage at h
  by_cases hc : 1 ≤ pn ∧ pn - 1 < doc.length
  · rw [if_pos hc] at h
    exact embedImagesOnPage_length scale pn imgs doc doc' h
  · rw [if_neg hc] at h
    cases h
    rfl

/-- a failing image on an in-range page aborts the whole image pass. -/
theorem embedImagesAll_error (scale : ℚ) (imap : Images) (pn : ℕ)
    (imgs : List ImageAnn) (hentry : (pn, imgs) ∈ imap) (img : ImageAnn)
    (hmem : img ∈ imgs) (hfail : embedImageOp img = .error ())
    (hpn : 1 ≤ pn) :
    ∀ doc : PDFDoc, pn - 1 < doc.length →
      embedImagesAll scale doc imap = .error () := by
  induction imap with
  | nil => cases hentry
  | cons e t ih =>
    intro doc hlen
    unfold embedImagesAll
    rw [List.foldlM_cons]
    rcases List.mem_cons.mp hentry with h | h
    · have hpage : embedImagePage scale doc e.1 e.2 = .error () := by
        rw [← h]
        unfold embedImagePage
        rw [if_pos ⟨hpn, hlen⟩]
        exact embedImagesOnPage_error scale pn imgs img hmem hfail doc
      rw [hpage]
      rfl
    · cases hh : embedImagePage scale doc e.1 e.2 with
      | error err => rfl
      | ok d' =>
        have hlen' : pn - 1 < d'.length := by
          rw [embedImagePage_length scale doc d' e.1 e.2 hh]
          exact hlen
        have := ih h d' hlen'
        unfold embedImagesAll at this
        exact this

/-- an image whose declared type is neither PNG nor JPEG and whose bytes
also fail the PNG fallback decode. -/
def badImage : ImageAnn := ⟨"i1", 10, 10, 50, 50, "image/gif", ⟨false, false⟩⟩

/-- C6 counterexample: with one malformed image (declared `image/gif`,
bytes undecodable as PNG) alongside a perfectly drawable text box, the
failed fallback `embedPng` rethrows into `embedAllContent`'s outer catch,
which only logs: the whole recomposition is abandoned — the session keeps
its old buffer, the good box is not drawn and no new history entry is
saved — contradicting the claim that only the malformed annotation is
skipped and the rest is still drawn and saved. -/
theorem C6_isolation_counterexample :
    rebuildSession sessionDemo [(1, [helloBox])] [(1, [badImage])] =
      sessionDemo ∧
    (rebuildSession sessionDemo [(1, [helloBox])] [(1, [badImage])]
      ).hist.entries.length = 1 ∧
    (rebuildSession sessionDemo [(1, [helloBox])] [(1, [badImage])]
      ).current = [⟨842, []⟩] := by
  refine ⟨rfl, rfl, rfl⟩

/-- C6 (amended): a decode failure of a single image is not isolated: when
any image on an in-range page fails both its declared-type decode and the
PNG fallback, the exception propagates out of the embed loop to
`embedAllContent`'s outer catch, and the whole recomposition becomes a
logged no-op — the session (buffer, edited URL and history) is left
exactly unchanged, no other annotation is drawn and nothing is saved; the
failure is still contained in the sense that the call returns normally. -/
theorem C6_failed_image_aborts (s : Session) (bmap : Boxes) (imap : Images)
    (orig : PDFDoc) (hf : s.fileUrl = some orig) (pn : ℕ)
    (imgs : List ImageAnn) (hentry : (pn, imgs) ∈ imap) (img : ImageAnn)
    (hmem : img ∈ imgs) (hfail : embedImageOp img = .error ())
    (hpn : 1 ≤ pn) (hlen : pn - 1 < orig.length) :
    rebuildSession s bmap imap = s := by
  have hlen2 : pn - 1 < (embedBoxes s.ui orig bmap).length := by
    rw [embedBoxes_length]
    exact hlen
  have herr : embedAllContent s.ui orig bmap imap = .error () := by
    unfold embedAllContent
    exact embedImagesAll_error s.ui.scale imap pn imgs hentry img hmem hfail
      hpn _ hlen2
  unfold rebuildSession rebuildResult
  rw [hf]
  simp only [herr]

theorem C6_failed_image_aborts_witness :
    rebuildSession sessionDemo [(1, [helloBox])] [(1, [badImage])] =
      sessionDemo :=
  C6_failed_image_aborts sessionDemo [(1, [helloBox])] [(1, [badImage])]
    onePageDoc rfl 1 [badImage] (List.mem_singleton_self _) badImage
    (List.mem_singleton_self _) rfl (le_refl 1) (by decide)

theorem C10_stored_filename_safe_witness :
    (storedFilename 1700000000000 "../../etc/passwd").data.all isSafeChar =
      true :=
  (C10_stored_filename_safe 1700000000000 "../../etc/passwd").1
